import Mathlib

/-!
Verification of the python-worker image service core

Shallow embedding of the geometric/arithmetic core of the repository:
* `src/app/tasks/grid_overlay.py` — reference grid overlay (`add_reference_grid`),
* `src/app/routers/image.py` — resize target calculator (`resize_image`) and
  montage layout engine (`create_montage`).

Python integer floor division `//` is embedded as `Nat` division.  Python
float division (used by the resize calculator and the montage scaler) is
embedded as exact rational division with `Nat.floor` for `int(...)`
truncation (all values involved are nonnegative, so truncation = floor);
this is the exact arithmetic the specification describes.
Pydantic validation guarantees every optional numeric field is `≥ 1` when
present, so Python truthiness tests (`if request.max_dimension:`) coincide
with presence tests and are embedded as `Option` matches.
-/

namespace PythonWorker

/-! ## Grid overlay calculator (src/app/tasks/grid_overlay.py)

`add_reference_grid` computes, for each axis of extent `orig_w`/`orig_h`,
line offsets `margin + (extent * i // grid_size)` for `i` in
`0..grid_size`, and cell centers
`margin + (extent * i // grid_size) + (extent // grid_size // 2)`. -/

/-- Boundary offset of index `i` along one axis
(grid_overlay.py lines 97 and 102: `margin + (orig_w * i // grid_size)`). -/
def cellBoundary (extent margin divisions i : ℕ) : ℕ :=
  margin + extent * i / divisions

/-- The full boundary sequence drawn by the overlay: one offset per
`i in range(grid_size + 1)`. -/
def cellBoundaries (extent margin divisions : ℕ) : List ℕ :=
  (List.range (divisions + 1)).map (cellBoundary extent margin divisions)

/-- Column-label center x (grid_overlay.py line 122:
`margin + (orig_w * i // grid_size) + (orig_w // grid_size // 2)`). -/
def colCenterX (w margin gridSize i : ℕ) : ℕ :=
  margin + w * i / gridSize + w / gridSize / 2

/-- Row-label center y (grid_overlay.py line 141:
`margin + (orig_h * i // grid_size) + (orig_h // grid_size // 2)`). -/
def rowCenterY (h margin gridSize i : ℕ) : ℕ :=
  margin + h * i / gridSize + h / gridSize / 2

/-- The geometric plan produced by `add_reference_grid`: canvas size,
background color, paste offset of the source image, and the positions of
the vertical and horizontal grid lines. -/
structure GridRenderPlan where
  canvasW : ℕ
  canvasH : ℕ
  background : ℕ × ℕ × ℕ × ℕ
  pasteX : ℕ
  pasteY : ℕ
  vLineXs : List ℕ
  hLineYs : List ℕ
  lineAlpha : ℕ
  deriving DecidableEq

/-- Embedding of `add_reference_grid` (grid_overlay.py lines 79-106):
canvas `(orig_w + margin*2, orig_h + margin*2)`, RGBA white `(255,255,255,255)`
background, source pasted at `(margin, margin)`, `grid_size + 1` vertical and
horizontal lines at `margin + extent * i // grid_size`, line alpha
`int(255 * alpha)`. -/
def addReferenceGrid (w h gridSize : ℕ) (alpha : ℚ) (margin : ℕ) : GridRenderPlan :=
  { canvasW := w + margin * 2
    canvasH := h + margin * 2
    background := (255, 255, 255, 255)
    pasteX := margin
    pasteY := margin
    vLineXs := (List.range (gridSize + 1)).map (fun i => margin + w * i / gridSize)
    hLineYs := (List.range (gridSize + 1)).map (fun i => margin + h * i / gridSize)
    lineAlpha := ⌊255 * alpha⌋₊ }

/-! ## Resize target calculator (src/app/routers/image.py, `resize_image`)

Lines 98-117: branch precedence is `max_dimension`, then both dimensions,
then `width` only, then `height` only; with none set the request is
rejected (HTTP 400, "Must provide width, height, or max_dimension").
`int(x)` on the nonnegative products is floor. -/

/-- The error raised when no resize dimension option is supplied
(image.py line 117). -/
inductive ResizeError where
  | invalidRequest
  deriving DecidableEq

/-- Embedding of the target-dimension computation of `resize_image`
(image.py lines 98-117). -/
def resizeTarget (origW origH : ℕ) (width height maxDimension : Option ℕ) :
    Except ResizeError (ℕ × ℕ) :=
  match maxDimension with
  | some md =>
      .ok (⌊(origW : ℚ) * min ((md : ℚ) / (origW : ℚ)) ((md : ℚ) / (origH : ℚ))⌋₊,
           ⌊(origH : ℚ) * min ((md : ℚ) / (origW : ℚ)) ((md : ℚ) / (origH : ℚ))⌋₊)
  | none =>
      match width, height with
      | some tw, some th => .ok (tw, th)
      | some tw, none => .ok (tw, ⌊(origH : ℚ) * ((tw : ℚ) / (origW : ℚ))⌋₊)
      | none, some th => .ok (⌊(origW : ℚ) * ((th : ℚ) / (origH : ℚ))⌋₊, th)
      | none, none => .error .invalidRequest

/-! ## Montage layout engine (src/app/routers/image.py, `create_montage`)

Lines 195-261.  `math.ceil(math.sqrt(n))` and `math.ceil(n / cols)` are
exact for the validated ranges (`2 ≤ n ≤ 25`, `1 ≤ cols ≤ 10`) and are
embedded as their integer counterparts; the `max_cell_width` scaling uses
float division `max_cell_width / max_w`, embedded as exact rational
division with floor truncation for `int(...)`. -/

/-- Label placement option (`label_position`, validated `top`/`bottom`). -/
inductive LabelPos where
  | top
  | bottom
  deriving DecidableEq

/-- The montage request fields that determine the layout geometry.
`sizes` holds the `(width, height)` pairs of the decoded images. -/
structure MontageRequest where
  sizes : List (ℕ × ℕ)
  columns : Option ℕ
  spacing : ℕ
  hasLabels : Bool
  labelPosition : LabelPos
  maxCellWidth : Option ℕ
  deriving DecidableEq

/-- `math.ceil(math.sqrt(n))` (image.py line 201), as the least `k` with
`n ≤ k * k`; exact for the validated range `2 ≤ n ≤ 25`. -/
def ceilSqrt (n : ℕ) : ℕ :=
  ((List.range (n + 1)).filter (fun k => n ≤ k * k)).headD n

/-- Grid column count (image.py lines 197-201): the supplied count, else
`ceil(sqrt(n))`. -/
def montageCols (r : MontageRequest) : ℕ :=
  match r.columns with
  | some c => c
  | none => ceilSqrt r.sizes.length

/-- Grid row count `math.ceil(n / cols)` (image.py line 202). -/
def montageRows (r : MontageRequest) : ℕ :=
  (r.sizes.length + montageCols r - 1) / montageCols r

/-- `max(img.width for img in images)` (image.py line 205). -/
def maxWidth (sizes : List (ℕ × ℕ)) : ℕ := (sizes.map Prod.fst).foldr max 0

/-- `max(img.height for img in images)` (image.py line 206). -/
def maxHeight (sizes : List (ℕ × ℕ)) : ℕ := (sizes.map Prod.snd).foldr max 0

/-- The image sizes after the optional `max_cell_width` downscale
(image.py lines 208-218): when the constraint is supplied and exceeded,
every image is resized to
`(int(w * scale), int(h * scale))` with `scale = max_cell_width / max_w`. -/
def scaledSizes (r : MontageRequest) : List (ℕ × ℕ) :=
  match r.maxCellWidth with
  | some m =>
      if m < maxWidth r.sizes then
        r.sizes.map (fun p =>
          (⌊(p.1 : ℚ) * ((m : ℚ) / (maxWidth r.sizes : ℚ))⌋₊,
           ⌊(p.2 : ℚ) * ((m : ℚ) / (maxWidth r.sizes : ℚ))⌋₊))
      else r.sizes
  | none => r.sizes

/-- The shared cell content width `max_w` after the optional downscale
(image.py lines 205, 210). -/
def cellMaxW (r : MontageRequest) : ℕ :=
  match r.maxCellWidth with
  | some m => if m < maxWidth r.sizes then m else maxWidth r.sizes
  | none => maxWidth r.sizes

/-- The shared cell content height `max_h` after the optional downscale
(image.py lines 206, 211: `int(max_h * scale)`). -/
def cellMaxH (r : MontageRequest) : ℕ :=
  match r.maxCellWidth with
  | some m =>
      if m < maxWidth r.sizes then
        ⌊(maxHeight r.sizes : ℚ) * ((m : ℚ) / (maxWidth r.sizes : ℚ))⌋₊
      else maxHeight r.sizes
  | none => maxHeight r.sizes

/-- `label_height = 25 if request.labels else 0` (image.py line 221). -/
def labelHeight (r : MontageRequest) : ℕ := if r.hasLabels then 25 else 0

/-- `cell_w = max_w + spacing` (image.py line 224). -/
def cellW (r : MontageRequest) : ℕ := cellMaxW r + r.spacing

/-- `cell_h = max_h + spacing + label_height` (image.py line 225). -/
def cellH (r : MontageRequest) : ℕ := cellMaxH r + r.spacing + labelHeight r

/-- `canvas_w = cols * cell_w + spacing` (image.py line 226). -/
def canvasW (r : MontageRequest) : ℕ := montageCols r * cellW r + r.spacing

/-- `canvas_h = rows * cell_h + spacing` (image.py line 227). -/
def canvasH (r : MontageRequest) : ℕ := montageRows r * cellH r + r.spacing

/-- `row = i // cols` (image.py line 247). -/
def rowOf (r : MontageRequest) (i : ℕ) : ℕ := i / montageCols r

/-- `col = i % cols` (image.py line 248). -/
def colOf (r : MontageRequest) (i : ℕ) : ℕ := i % montageCols r

/-- Width of image `i` at paste time (after the optional downscale). -/
def imgW (r : MontageRequest) (i : ℕ) : ℕ := ((scaledSizes r).getD i (0, 0)).1

/-- Height of image `i` at paste time (after the optional downscale). -/
def imgH (r : MontageRequest) (i : ℕ) : ℕ := ((scaledSizes r).getD i (0, 0)).2

/-- `x = col * cell_w + spacing + (max_w - img.width) // 2`
(image.py line 251). -/
def pasteX (r : MontageRequest) (i : ℕ) : ℕ :=
  colOf r i * cellW r + r.spacing + (cellMaxW r - imgW r i) / 2

/-- `y = row * cell_h + spacing`, plus `label_height` when labels sit on
top (image.py lines 252-255). -/
def pasteY (r : MontageRequest) (i : ℕ) : ℕ :=
  rowOf r i * cellH r + r.spacing +
    (if r.labelPosition = LabelPos.top ∧ r.hasLabels = true then labelHeight r else 0)

/-- The grid descriptor reported to the caller,
`f"{cols}x{rows}"` (image.py line 288). -/
def gridString (r : MontageRequest) : String :=
  toString (montageCols r) ++ "x" ++ toString (montageRows r)

/-- A 7-image montage request with no explicit column count. -/
def mreq7 : MontageRequest :=
  ⟨List.replicate 7 (10, 10), none, 10, false, LabelPos.bottom, none⟩

/-- A 7-image montage request with `columns = 4`. -/
def mreq7c4 : MontageRequest :=
  ⟨List.replicate 7 (10, 10), some 4, 10, false, LabelPos.bottom, none⟩

/-- A 2-image request whose widest image (100 px) exceeds
`max_cell_width = 50`. -/
def mreqScale : MontageRequest :=
  ⟨[(100, 80), (50, 40)], none, 10, false, LabelPos.bottom, some 50⟩

/-- A 2-image request with labels placed on top. -/
def mreqTopLabels : MontageRequest :=
  ⟨[(50, 50), (50, 50)], none, 10, true, LabelPos.top, none⟩

/-- A 2-image request whose second image is much shorter than the first. -/
def mreqTallShort : MontageRequest :=
  ⟨[(50, 50), (50, 10)], none, 10, false, LabelPos.bottom, none⟩

end PythonWorker

namespace PythonWorker

/-! ## Theorems for the grid overlay claims -/

/-- **C1.** For every `extent ≥ 0`, `divisions ≥ 2`, `margin ≥ 0`, the
sequence of cell boundary offsets `margin + extent * i / divisions`
(`i = 0..divisions`) is monotonically non-decreasing, starts at `margin`,
ends at `margin + extent`, and has exactly `divisions + 1` entries. -/
theorem grid_cell_boundaries (extent margin divisions : ℕ)
    (hd : 2 ≤ divisions) :
    (cellBoundaries extent margin divisions).length = divisions + 1 ∧
    List.Sorted (· ≤ ·) (cellBoundaries extent margin divisions) ∧
    (cellBoundaries extent margin divisions).head? = some margin ∧
    (cellBoundaries extent margin divisions).getLast? = some (margin + extent) := by
  refine ⟨by simp [cellBoundaries], ?_, ?_, ?_⟩
  · rw [cellBoundaries, List.Sorted, List.pairwise_map]
    refine (List.pairwise_lt_range _).imp ?_
    intro i j hij
    exact Nat.add_le_add_left
      (Nat.div_le_div_right (Nat.mul_le_mul_left extent hij.le)) margin
  · rw [cellBoundaries, List.range_succ_eq_map]
    simp [cellBoundary]
  · rw [cellBoundaries, List.range_succ, List.map_append]
    have h0 : extent * divisions / divisions = extent :=
      Nat.mul_div_cancel extent (by omega)
    simp [cellBoundary, h0]

/-- Witness for `grid_cell_boundaries` at `extent = 10`, `margin = 5`,
`divisions = 4`. -/
theorem grid_cell_boundaries_witness :
    (cellBoundaries 10 5 4).length = 4 + 1 ∧
    List.Sorted (· ≤ ·) (cellBoundaries 10 5 4) ∧
    (cellBoundaries 10 5 4).head? = some 5 ∧
    (cellBoundaries 10 5 4).getLast? = some (5 + 10) :=
  grid_cell_boundaries 10 5 4 (by decide)

/-- **C2.** For each cell index `i < divisions`, the label-center
coordinate used by the overlay equals `boundary i + (extent / divisions) / 2`,
that is `margin + extent * i / divisions + (extent / divisions) / 2`, and the
column (x) and row (y) axes use the same formula. -/
theorem grid_cell_center (extent margin divisions i : ℕ)
    (hi : i < divisions) :
    colCenterX extent margin divisions i =
      cellBoundary extent margin divisions i + extent / divisions / 2 ∧
    rowCenterY extent margin divisions i =
      cellBoundary extent margin divisions i + extent / divisions / 2 ∧
    colCenterX extent margin divisions i = rowCenterY extent margin divisions i :=
  ⟨rfl, rfl, rfl⟩

/-- Witness for `grid_cell_center` at `extent = 90`, `margin = 15`,
`divisions = 9`, `i = 2`. -/
theorem grid_cell_center_witness :
    colCenterX 90 15 9 2 = cellBoundary 90 15 9 2 + 90 / 9 / 2 ∧
    rowCenterY 90 15 9 2 = cellBoundary 90 15 9 2 + 90 / 9 / 2 ∧
    colCenterX 90 15 9 2 = rowCenterY 90 15 9 2 :=
  grid_cell_center 90 15 9 2 (by decide)

/-- **C7.** For every source size `(w, h)` and grid specification, the
overlay canvas has size `(w + 2*margin, h + 2*margin)`, opaque white
background, the source pasted at `(margin, margin)`, and exactly
`gridSize + 1` vertical and `gridSize + 1` horizontal lines at the
calculator-derived boundary offsets. -/
theorem grid_overlay_render (w h gridSize margin : ℕ) (alpha : ℚ) :
    (addReferenceGrid w h gridSize alpha margin).canvasW = w + 2 * margin ∧
    (addReferenceGrid w h gridSize alpha margin).canvasH = h + 2 * margin ∧
    (addReferenceGrid w h gridSize alpha margin).background = (255, 255, 255, 255) ∧
    (addReferenceGrid w h gridSize alpha margin).pasteX = margin ∧
    (addReferenceGrid w h gridSize alpha margin).pasteY = margin ∧
    (addReferenceGrid w h gridSize alpha margin).vLineXs =
      cellBoundaries w margin gridSize ∧
    (addReferenceGrid w h gridSize alpha margin).hLineYs =
      cellBoundaries h margin gridSize ∧
    (addReferenceGrid w h gridSize alpha margin).vLineXs.length = gridSize + 1 ∧
    (addReferenceGrid w h gridSize alpha margin).hLineYs.length = gridSize + 1 := by
  refine ⟨by simp [addReferenceGrid, Nat.mul_comm],
    by simp [addReferenceGrid, Nat.mul_comm], rfl, rfl, rfl, rfl, rfl, ?_, ?_⟩ <;>
    simp [addReferenceGrid]

/-! ## Theorems for the resize calculator claims -/

/-- `int(a * (b / c))` over exact arithmetic is `Nat` floor division,
including the degenerate `c = 0` convention (both sides are `0`). -/
theorem natFloor_mul_div (a b c : ℕ) :
    ⌊(a : ℚ) * ((b : ℚ) / (c : ℚ))⌋₊ = a * b / c := by
  rcases Nat.eq_zero_or_pos c with hc | hc
  · subst hc; simp
  · have h : (a : ℚ) * ((b : ℚ) / (c : ℚ)) = ((a * b : ℕ) : ℚ) / ((c : ℕ) : ℚ) := by
      push_cast; ring
    rw [h, Nat.floor_div_nat, Nat.floor_natCast]

/-- `min(md/w, md/h) = md / max(w, h)` for positive `w, h`. -/
theorem min_div_eq_max (md w h : ℕ) (hw : 1 ≤ w) (hh : 1 ≤ h) :
    min ((md : ℚ) / (w : ℚ)) ((md : ℚ) / (h : ℚ)) = (md : ℚ) / ((max w h : ℕ) : ℚ) := by
  have hw0 : (0 : ℚ) < (w : ℚ) := by exact_mod_cast hw
  have hh0 : (0 : ℚ) < (h : ℚ) := by exact_mod_cast hh
  rcases le_total w h with hwh | hwh
  · rw [Nat.max_eq_right hwh]
    exact min_eq_right
      (div_le_div_of_nonneg_left (by positivity) hw0 (by exact_mod_cast hwh))
  · rw [Nat.max_eq_left hwh]
    exact min_eq_left
      (div_le_div_of_nonneg_left (by positivity) hh0 (by exact_mod_cast hwh))

/-- The `max_dimension` branch computes `(w * md / max w h, h * md / max w h)`
in integer arithmetic, for any accompanying `width`/`height` options. -/
theorem resizeTarget_maxDim (w h md : ℕ) (wd ht : Option ℕ)
    (hw : 1 ≤ w) (hh : 1 ≤ h) :
    resizeTarget w h wd ht (some md) =
      .ok (w * md / max w h, h * md / max w h) := by
  have hmin := min_div_eq_max md w h hw hh
  simp only [resizeTarget, hmin, natFloor_mul_div]

/-- The width-only branch computes `(tw, h * tw / w)` in integer
arithmetic. -/
theorem resizeTarget_width (w h tw : ℕ) :
    resizeTarget w h (some tw) none none = .ok (tw, h * tw / w) := by
  simp only [resizeTarget, natFloor_mul_div]

/-- **C3.** The `max_dimension` policy returns
`(⌊w * scale⌋, ⌊h * scale⌋)` with `scale = min(md/w, md/h)`; the longer
output side equals `md` exactly; `800x600` with `max_dimension = 400`
yields `400x300`, and `800x600` with only `width = 100` yields `100x75`. -/
theorem resize_max_dimension_policy (w h md : ℕ) (wd ht : Option ℕ)
    (hw : 1 ≤ w) (hh : 1 ≤ h) (hmd : 1 ≤ md) :
    resizeTarget w h wd ht (some md) =
      .ok (⌊(w : ℚ) * min ((md : ℚ) / (w : ℚ)) ((md : ℚ) / (h : ℚ))⌋₊,
           ⌊(h : ℚ) * min ((md : ℚ) / (w : ℚ)) ((md : ℚ) / (h : ℚ))⌋₊) ∧
    max (w * md / max w h) (h * md / max w h) = md ∧
    resizeTarget 800 600 none none (some 400) = .ok (400, 300) ∧
    resizeTarget 800 600 (some 100) none none = .ok (100, 75) := by
  refine ⟨rfl, ?_, ?_, ?_⟩
  · rcases le_total w h with hwh | hwh
    · rw [Nat.max_eq_right hwh]
      have hcancel : h * md / h = md := Nat.mul_div_cancel_left md (by omega)
      have hle : w * md / h ≤ h * md / h :=
        Nat.div_le_div_right (Nat.mul_le_mul_right md hwh)
      rw [hcancel] at hle ⊢
      exact Nat.max_eq_right hle
    · rw [Nat.max_eq_left hwh]
      have hcancel : w * md / w = md := Nat.mul_div_cancel_left md (by omega)
      have hle : h * md / w ≤ w * md / w :=
        Nat.div_le_div_right (Nat.mul_le_mul_right md hwh)
      rw [hcancel] at hle ⊢
      exact Nat.max_eq_left hle
  · rw [resizeTarget_maxDim 800 600 400 none none (by norm_num) (by norm_num)]
    simp only [Except.ok.injEq, Prod.mk.injEq]
    have hm : (800 : ℕ) ⊔ 600 = 800 := rfl
    rw [hm]
    norm_num
  · rw [resizeTarget_width]

/-- Witness for `resize_max_dimension_policy`: the two concrete resize
round-trips, obtained by instantiating the theorem at `800x600`. -/
theorem resize_max_dimension_policy_witness :
    resizeTarget 800 600 none none (some 400) = .ok (400, 300) ∧
    resizeTarget 800 600 (some 100) none none = .ok (100, 75) :=
  (resize_max_dimension_policy 800 600 400 none none
    (by norm_num) (by norm_num) (by norm_num)).2.2

/-- **C5.** Policy precedence: when `max_dimension` is set, `width` and
`height` are ignored entirely; when both `width` and `height` are set
(without `max_dimension`) they are used verbatim; when none of the three
is set the calculator fails with `invalidRequest` and no default policy
is applied. -/
theorem resize_policy_precedence :
    (∀ w h wd ht md, resizeTarget w h wd ht (some md) =
        resizeTarget w h none none (some md)) ∧
    (∀ w h tw th, resizeTarget w h (some tw) (some th) none = .ok (tw, th)) ∧
    (∀ w h, resizeTarget w h none none none =
        Except.error ResizeError.invalidRequest) :=
  ⟨fun _ _ _ _ _ => rfl, fun _ _ _ _ => rfl, fun _ _ => rfl⟩

/-- **C10.** Whenever the validated inputs satisfy
`min w h * md < max w h`, the `max_dimension` policy computes `0` for the
shorter target side, so the subsequent resize is attempted with a zero
dimension. -/
theorem resize_zero_dimension (w h md : ℕ) (hw : 1 ≤ w) (hh : 1 ≤ h)
    (hmd : 1 ≤ md) (hmd2 : md ≤ 4096) (hlt : min w h * md < max w h) :
    resizeTarget w h none none (some md) =
      .ok (w * md / max w h, h * md / max w h) ∧
    min (w * md / max w h) (h * md / max w h) = 0 := by
  refine ⟨resizeTarget_maxDim w h md none none hw hh, ?_⟩
  rcases le_total w h with hwh | hwh
  · rw [Nat.min_eq_left hwh, Nat.max_eq_right hwh] at hlt
    rw [Nat.max_eq_right hwh]
    have h0 : w * md / h = 0 := Nat.div_eq_of_lt hlt
    rw [h0]
    exact Nat.zero_min _
  · rw [Nat.min_eq_right hwh, Nat.max_eq_left hwh] at hlt
    rw [Nat.max_eq_left hwh]
    have h0 : h * md / w = 0 := Nat.div_eq_of_lt hlt
    rw [h0]
    exact Nat.min_zero _

/-- Witness for `resize_zero_dimension`: an `800x600` image with
`max_dimension = 1` is sent to the resizer as `1x0`. -/
theorem resize_zero_dimension_witness :
    resizeTarget 800 600 none none (some 1) =
      .ok (800 * 1 / max 800 600, 600 * 1 / max 800 600) ∧
    min (800 * 1 / max 800 600) (600 * 1 / max 800 600) = 0 :=
  resize_zero_dimension 800 600 1 (by norm_num) (by norm_num) (by norm_num)
    (by norm_num) (by norm_num)

/-! ## Theorems for the montage layout claims -/

/-- `Nat.ceil` of an exact rational division is ceiling division. -/
theorem natCeil_div_eq (a c : ℕ) (hc : 1 ≤ c) :
    ⌈(a : ℚ) / (c : ℚ)⌉₊ = (a + c - 1) / c := by
  have hc0 : (0 : ℚ) < (c : ℚ) := by exact_mod_cast hc
  have hub : a ≤ (a + c - 1) / c * c := by
    have h1 : (a + c - 1) / c < (a + c - 1) / c + 1 := Nat.lt_succ_self _
    have h2 : a + c - 1 < ((a + c - 1) / c + 1) * c :=
      (Nat.div_lt_iff_lt_mul (by omega)).mp h1
    have h3 : ((a + c - 1) / c + 1) * c = (a + c - 1) / c * c + c := by ring
    omega
  apply le_antisymm
  · refine Nat.ceil_le.mpr ?_
    rw [div_le_iff₀ hc0]
    exact_mod_cast hub
  · have hm : (a : ℚ) / (c : ℚ) ≤ (⌈(a : ℚ) / (c : ℚ)⌉₊ : ℚ) := Nat.le_ceil _
    rw [div_le_iff₀ hc0] at hm
    have hm2 : a ≤ ⌈(a : ℚ) / (c : ℚ)⌉₊ * c := by exact_mod_cast hm
    have hlt : a + c - 1 < (⌈(a : ℚ) / (c : ℚ)⌉₊ + 1) * c := by
      have hexp : (⌈(a : ℚ) / (c : ℚ)⌉₊ + 1) * c = ⌈(a : ℚ) / (c : ℚ)⌉₊ * c + c := by
        ring
      omega
    have := (Nat.div_lt_iff_lt_mul (show 0 < c by omega)).mpr hlt
    omega

/-- Every member of a list is at most its `foldr max 0`. -/
theorem le_foldr_max (l : List ℕ) (a : ℕ) (ha : a ∈ l) : a ≤ l.foldr max 0 := by
  induction l with
  | nil => cases ha
  | cons x xs ih =>
    rcases List.mem_cons.mp ha with h | h
    · subst h; exact le_max_left _ _
    · exact le_trans (ih h) (le_max_right _ _)

/-- Every image width is at most `max_w`. -/
theorem fst_le_maxWidth (sizes : List (ℕ × ℕ)) (p : ℕ × ℕ) (hp : p ∈ sizes) :
    p.1 ≤ maxWidth sizes :=
  le_foldr_max _ _ (List.mem_map_of_mem Prod.fst hp)

/-- Every image height is at most `max_h`. -/
theorem snd_le_maxHeight (sizes : List (ℕ × ℕ)) (p : ℕ × ℕ) (hp : p ∈ sizes) :
    p.2 ≤ maxHeight sizes :=
  le_foldr_max _ _ (List.mem_map_of_mem Prod.snd hp)

/-- `getD` within bounds is `getElem`. -/
theorem getD_of_lt {α : Type} (l : List α) (i : ℕ) (d : α) (h : i < l.length) :
    l.getD i d = l[i] := by
  rw [List.getD_eq_getElem?_getD, List.getElem?_eq_getElem h]
  rfl

/-- The optional downscale does not change the number of images. -/
theorem scaledSizes_length (r : MontageRequest) :
    (scaledSizes r).length = r.sizes.length := by
  rw [scaledSizes]
  cases r.maxCellWidth with
  | none => rfl
  | some m =>
    by_cases hlt : m < maxWidth r.sizes
    · simp [hlt]
    · simp [hlt]

/-- **C4.** Montage grid shape: a supplied column count is used as-is,
otherwise `columns = ceil(sqrt(n))`; `rows = ceil(n / columns)`;
`columns * rows ≥ n`; the row-major cell of image `i` determines `i`
uniquely; the reported descriptor is `"{cols}x{rows}"`; 7 images give a
`3x3` grid without a column count and 2 rows with `columns = 4`. -/
theorem montage_grid_shape (r : MontageRequest) (hc : 1 ≤ montageCols r) :
    (∀ c, r.columns = some c → montageCols r = c) ∧
    (r.columns = none → montageCols r = ceilSqrt r.sizes.length) ∧
    montageRows r = ⌈(r.sizes.length : ℚ) / (montageCols r : ℚ)⌉₊ ∧
    r.sizes.length ≤ montageCols r * montageRows r ∧
    (∀ i j, rowOf r i = rowOf r j → colOf r i = colOf r j → i = j) ∧
    gridString r = toString (montageCols r) ++ "x" ++ toString (montageRows r) ∧
    montageCols mreq7 = 3 ∧ montageRows mreq7 = 3 ∧ montageRows mreq7c4 = 2 := by
  refine ⟨?_, ?_, ?_, ?_, ?_, rfl, by decide, by decide, by decide⟩
  · intro c hsome
    simp [montageCols, hsome]
  · intro hnone
    simp [montageCols, hnone]
  · rw [montageRows, natCeil_div_eq _ _ hc]
  · have hdm := Nat.div_add_mod (r.sizes.length + montageCols r - 1) (montageCols r)
    have hmlt : (r.sizes.length + montageCols r - 1) % montageCols r < montageCols r :=
      Nat.mod_lt _ (by omega)
    have hrows : montageRows r =
        (r.sizes.length + montageCols r - 1) / montageCols r := rfl
    rw [← hrows] at hdm
    omega
  · intro i j hr hcol
    simp only [rowOf, colOf] at hr hcol
    calc i = montageCols r * (i / montageCols r) + i % montageCols r :=
          (Nat.div_add_mod i _).symm
      _ = montageCols r * (j / montageCols r) + j % montageCols r := by rw [hr, hcol]
      _ = j := Nat.div_add_mod j _

/-- Witness for `montage_grid_shape`: the concrete 7-image grids, via the
theorem instantiated at `mreq7`. -/
theorem montage_grid_shape_witness :
    montageCols mreq7 = 3 ∧ montageRows mreq7 = 3 ∧ montageRows mreq7c4 = 2 :=
  (montage_grid_shape mreq7 (by decide)).2.2.2.2.2.2

/-- **C6.** When `max_cell_width` is supplied and exceeded, every image is
downscaled by the single ratio `max_cell_width / max_w` (with floor on each
axis) and the shared cell width becomes `max_cell_width`; otherwise no
image is rescaled. -/
theorem montage_uniform_scale (r : MontageRequest) :
    (∀ m, r.maxCellWidth = some m → m < maxWidth r.sizes →
        scaledSizes r = r.sizes.map (fun p =>
          (p.1 * m / maxWidth r.sizes, p.2 * m / maxWidth r.sizes)) ∧
        cellMaxW r = m) ∧
    (∀ m, r.maxCellWidth = some m → maxWidth r.sizes ≤ m →
        scaledSizes r = r.sizes) ∧
    (r.maxCellWidth = none → scaledSizes r = r.sizes) := by
  refine ⟨?_, ?_, ?_⟩
  · intro m hm hlt
    constructor
    · simp only [scaledSizes, hm, if_pos hlt, natFloor_mul_div]
    · simp [cellMaxW, hm, hlt]
  · intro m hm hle
    simp [scaledSizes, hm, Nat.not_lt.mpr hle]
  · intro hm
    simp [scaledSizes, hm]

/-- Witness for `montage_uniform_scale`: a 100-px-wide and a 50-px-wide
image under `max_cell_width = 50` are both halved. -/
theorem montage_uniform_scale_witness :
    scaledSizes mreqScale = [(50, 40), (25, 20)] ∧ cellMaxW mreqScale = 50 := by
  have h := (montage_uniform_scale mreqScale).1 50 rfl (by decide)
  exact ⟨h.1.trans (by decide), h.2⟩

/-- After the optional downscale, every image still fits in the shared
cell content box: `imgW ≤ max_w` and `imgH ≤ max_h`. -/
theorem scaled_le (r : MontageRequest) (i : ℕ) (hi : i < r.sizes.length) :
    imgW r i ≤ cellMaxW r ∧ imgH r i ≤ cellMaxH r := by
  have hi2 : i < (scaledSizes r).length := by rw [scaledSizes_length]; exact hi
  rw [imgW, imgH, getD_of_lt _ _ _ hi2]
  rcases hmc : r.maxCellWidth with _ | m
  · have hs : scaledSizes r = r.sizes := by simp [scaledSizes, hmc]
    have hw : cellMaxW r = maxWidth r.sizes := by simp [cellMaxW, hmc]
    have hh : cellMaxH r = maxHeight r.sizes := by simp [cellMaxH, hmc]
    rw [hw, hh]
    simp only [hs]
    exact ⟨fst_le_maxWidth _ _ (List.getElem_mem _),
      snd_le_maxHeight _ _ (List.getElem_mem _)⟩
  · by_cases hlt : m < maxWidth r.sizes
    · have hs : scaledSizes r = r.sizes.map (fun p =>
          (p.1 * m / maxWidth r.sizes, p.2 * m / maxWidth r.sizes)) := by
        simp only [scaledSizes, hmc, if_pos hlt, natFloor_mul_div]
      have hcw : cellMaxW r = m := by simp [cellMaxW, hmc, hlt]
      have hch : cellMaxH r = maxHeight r.sizes * m / maxWidth r.sizes := by
        simp only [cellMaxH, hmc, if_pos hlt, natFloor_mul_div]
      rw [hcw, hch]
      simp only [hs, List.getElem_map]
      have hW0 : 0 < maxWidth r.sizes := by omega
      constructor
      · calc r.sizes[i].1 * m / maxWidth r.sizes
            ≤ maxWidth r.sizes * m / maxWidth r.sizes :=
              Nat.div_le_div_right
                (Nat.mul_le_mul_right m (fst_le_maxWidth _ _ (List.getElem_mem _)))
          _ = m := Nat.mul_div_cancel_left m hW0
      · exact Nat.div_le_div_right
          (Nat.mul_le_mul_right m (snd_le_maxHeight _ _ (List.getElem_mem _)))
    · have hs : scaledSizes r = r.sizes := by simp [scaledSizes, hmc, hlt]
      have hw : cellMaxW r = maxWidth r.sizes := by simp [cellMaxW, hmc, hlt]
      have hh : cellMaxH r = maxHeight r.sizes := by simp [cellMaxH, hmc, hlt]
      rw [hw, hh]
      simp only [hs]
      exact ⟨fst_le_maxWidth _ _ (List.getElem_mem _),
        snd_le_maxHeight _ _ (List.getElem_mem _)⟩

/-- **C8 (amended).** Each image is centered horizontally within its cell:
the offset from the left content edge of the cell is `(max_w - imgW) / 2`, so
the left and right gaps differ by at most one pixel.  Vertically the image
is pasted at the top of the image area of the cell (below the label band only
when labels sit on top), not centered. -/
theorem montage_cell_alignment (r : MontageRequest) (i : ℕ) :
    pasteX r i = colOf r i * cellW r + r.spacing + (cellMaxW r - imgW r i) / 2 ∧
    (cellMaxW r - imgW r i) / 2 ≤
      cellMaxW r - imgW r i - (cellMaxW r - imgW r i) / 2 ∧
    cellMaxW r - imgW r i - (cellMaxW r - imgW r i) / 2 ≤
      (cellMaxW r - imgW r i) / 2 + 1 ∧
    pasteY r i = rowOf r i * cellH r + r.spacing +
      (if r.labelPosition = LabelPos.top ∧ r.hasLabels = true
        then labelHeight r else 0) := by
  refine ⟨rfl, ?_, ?_, rfl⟩ <;> omega

/-- Counterexample to the vertical-centering conjunct of C8: in
`mreqTallShort` the 10-px-tall image 1 sits in a 50-px-tall image area at
vertical offset 0, not at the centered offset `(50 - 10) / 2 = 20`. -/
theorem montage_vcenter_counterexample :
    pasteY mreqTallShort 1 ≠
      rowOf mreqTallShort 1 * cellH mreqTallShort + mreqTallShort.spacing +
        (cellMaxH mreqTallShort - imgH mreqTallShort 1) / 2 := by decide

/-- **C9 (amended).** No montage paste clips the canvas: each scaled image
fits the shared cell box, `x ≥ spacing`, `x + imgW ≤ canvas_w`,
`y ≥ spacing`, `y + imgH ≤ canvas_h`, and when labels sit at the bottom
also `y + imgH + label_band ≤ canvas_h` (with top labels the band lies
above the image instead). -/
theorem montage_no_clip (r : MontageRequest) (i : ℕ)
    (hc : 1 ≤ montageCols r) (hi : i < r.sizes.length) :
    imgW r i ≤ cellMaxW r ∧ imgH r i ≤ cellMaxH r ∧
    r.spacing ≤ pasteX r i ∧ pasteX r i + imgW r i ≤ canvasW r ∧
    r.spacing ≤ pasteY r i ∧ pasteY r i + imgH r i ≤ canvasH r ∧
    (r.labelPosition = LabelPos.bottom →
      pasteY r i + imgH r i + labelHeight r ≤ canvasH r) := by
  obtain ⟨hW, hH⟩ := scaled_le r i hi
  have hcoldef : colOf r i = i % montageCols r := rfl
  have hrowdef : rowOf r i = i / montageCols r := rfl
  have hcol : i % montageCols r < montageCols r := Nat.mod_lt i (by omega)
  have hrow : rowOf r i + 1 ≤ montageRows r := by
    have hd1 : i / montageCols r ≤ (r.sizes.length - 1) / montageCols r :=
      Nat.div_le_div_right (by omega)
    have hd2 : ((r.sizes.length - 1) + montageCols r) / montageCols r =
        (r.sizes.length - 1) / montageCols r + 1 :=
      Nat.add_div_right _ (by omega)
    have hd3 : r.sizes.length - 1 + montageCols r =
        r.sizes.length + montageCols r - 1 := by omega
    rw [hd3] at hd2
    have hd4 : montageRows r =
        (r.sizes.length + montageCols r - 1) / montageCols r := rfl
    omega
  have hxmul : (colOf r i + 1) * cellW r ≤ montageCols r * cellW r :=
    Nat.mul_le_mul_right _ (by omega)
  have hymul : (rowOf r i + 1) * cellH r ≤ montageRows r * cellH r :=
    Nat.mul_le_mul_right _ hrow
  have hxexp : (colOf r i + 1) * cellW r = colOf r i * cellW r + cellW r := by ring
  have hyexp : (rowOf r i + 1) * cellH r = rowOf r i * cellH r + cellH r := by ring
  have hcw : cellW r = cellMaxW r + r.spacing := rfl
  have hch : cellH r = cellMaxH r + r.spacing + labelHeight r := rfl
  have hpx : pasteX r i =
      colOf r i * cellW r + r.spacing + (cellMaxW r - imgW r i) / 2 := rfl
  have hpy : pasteY r i = rowOf r i * cellH r + r.spacing +
      (if r.labelPosition = LabelPos.top ∧ r.hasLabels = true
        then labelHeight r else 0) := rfl
  have hpad : (if r.labelPosition = LabelPos.top ∧ r.hasLabels = true
      then labelHeight r else 0) ≤ labelHeight r := by split <;> omega
  have hcanw : canvasW r = montageCols r * cellW r + r.spacing := rfl
  have hcanh : canvasH r = montageRows r * cellH r + r.spacing := rfl
  refine ⟨hW, hH, by omega, by omega, by omega, by omega, ?_⟩
  intro hb
  have hpad0 : (if r.labelPosition = LabelPos.top ∧ r.hasLabels = true
      then labelHeight r else 0) = 0 := by
    have hnot : ¬(r.labelPosition = LabelPos.top ∧ r.hasLabels = true) := by
      intro hcontra
      rw [hb] at hcontra
      exact LabelPos.noConfusion hcontra.1
    rw [if_neg hnot]
  omega

/-- Witness for `montage_no_clip`: the scaled two-image request, image 0. -/
theorem montage_no_clip_witness :
    imgW mreqScale 0 ≤ cellMaxW mreqScale ∧
    imgH mreqScale 0 ≤ cellMaxH mreqScale ∧
    mreqScale.spacing ≤ pasteX mreqScale 0 ∧
    pasteX mreqScale 0 + imgW mreqScale 0 ≤ canvasW mreqScale ∧
    mreqScale.spacing ≤ pasteY mreqScale 0 ∧
    pasteY mreqScale 0 + imgH mreqScale 0 ≤ canvasH mreqScale ∧
    pasteY mreqScale 0 + imgH mreqScale 0 + labelHeight mreqScale ≤
      canvasH mreqScale := by
  have h := montage_no_clip mreqScale 0 (by decide) (by decide)
  exact ⟨h.1, h.2.1, h.2.2.1, h.2.2.2.1, h.2.2.2.2.1, h.2.2.2.2.2.1,
    h.2.2.2.2.2.2 rfl⟩

/-- Counterexample to C9 as literally stated: with labels on top
(`mreqTopLabels`), `y + image_height + label_band` exceeds the canvas
height (`35 + 50 + 25 = 110 > 95`). -/
theorem montage_clip_counterexample :
    ¬ (pasteY mreqTopLabels 0 + imgH mreqTopLabels 0 + labelHeight mreqTopLabels ≤
        canvasH mreqTopLabels) := by decide

end PythonWorker
